import Mathlib

/-!
Verification of the `wirelane` socket library's address marshaling and
socket-lifecycle operations, as a shallow embedding in Lean.

Integers are modelled as `Nat`/`Int` with explicit wrapping where the source
performs machine-integer conversions.  The target platform is Linux/x86-64
(little-endian), matching the `libc` constants used by the source.
-/

/-! ### Machine-integer helpers (little-endian host)

`u16_to_be`/`u16_from_be` model Rust's `u16::to_be` / `u16::from_be` on a
little-endian host: both byte-swap the 16-bit value.
`u32_from_be_bytes` models `u32::from_be_bytes` on a 4-byte array,
`u32_swap_bytes` models `u32::to_be` (a byte swap on a little-endian host),
and `u32_to_ne_bytes` models `u32::to_ne_bytes` (little-endian byte order).
-/

def u16_to_be (p : Nat) : Nat := p % 256 * 256 + p / 256 % 256

def u16_from_be (p : Nat) : Nat := p % 256 * 256 + p / 256 % 256

def u32_from_be_bytes : List Nat → Nat
  | [a, b, c, d] => ((a * 256 + b) * 256 + c) * 256 + d
  | _ => 0

def u32_swap_bytes (v : Nat) : Nat :=
  v % 256 * 16777216 + v / 256 % 256 * 65536 + v / 65536 % 256 * 256 + v / 16777216 % 256

def u32_to_ne_bytes (v : Nat) : List Nat :=
  [v % 256, v / 256 % 256, v / 65536 % 256, v / 16777216 % 256]

/-- Models Rust's `u8 as libc::c_char` cast (`u8 → i8`, wrapping). -/
def c_char_of_u8 (b : Nat) : Int := if b < 128 then (b : Int) else (b : Int) - 256

/-- Models Rust's `libc::c_char as u8` cast (`i8 → u8`, wrapping). -/
def u8_of_c_char (c : Int) : Nat := (c % 256).toNat

/-! ### Platform constants (Linux/x86-64, from the `libc` crate) -/

def AF_INET : Nat := 2
def AF_INET6 : Nat := 10
def AF_UNIX : Nat := 1
def EAGAIN : Int := 11
def EINTR : Int := 4
def EINPROGRESS : Int := 115
def SOL_SOCKET : Int := 1
def SCM_RIGHTS : Int := 1
def sizeof_sockaddr_in : Nat := 16
def sizeof_sockaddr_in6 : Nat := 28
def sizeof_sockaddr_un : Nat := 110
def sizeof_sockaddr_storage : Nat := 128
/-- `addr.sun_path.len()` on Linux: `sockaddr_un` has a 108-byte path buffer. -/
def SUN_PATH_LEN : Nat := 108

/-! ### IPv4 addresses (`src/addr/ipv4.rs`) -/

/-- `SocketAddrV4 { ip: [u8; 4], port: u16 }`.  The `ip` field is the 4-byte
array (each entry < 256), `port` the 16-bit port in host order. -/
structure SocketAddrV4 where
  ip : List Nat
  port : Nat
deriving DecidableEq, Repr

/-- `libc::sockaddr_in`: `sin_port` holds the stored (network-order) 16-bit
value, `s_addr` the stored 32-bit value of `sin_addr.s_addr`. -/
structure sockaddr_in where
  sin_family : Nat
  sin_port : Nat
  s_addr : Nat
  sin_zero : List Nat
deriving DecidableEq, Repr

/-- `SocketAddrV4::to_raw` (`ipv4.rs:59`): family `AF_INET`, port via
`to_be`, address via `u32::from_be_bytes(ip).to_be()`, zero padding. -/
def SocketAddrV4.to_raw (a : SocketAddrV4) : sockaddr_in :=
  { sin_family := AF_INET
    sin_port := u16_to_be a.port
    s_addr := u32_swap_bytes (u32_from_be_bytes a.ip)
    sin_zero := List.replicate 8 0 }

/-- `SocketAddrV4::from_raw` (`ipv4.rs:41`): `ip` from `s_addr.to_ne_bytes()`,
`port` from `u16::from_be(sin_port)`. -/
def SocketAddrV4.from_raw (r : sockaddr_in) : SocketAddrV4 :=
  { ip := u32_to_ne_bytes r.s_addr
    port := u16_from_be r.sin_port }

/-- `<SocketAddrV4 as ToSockAddr>::with_raw` (`ipv4.rs:73`): always builds the
raw form and invokes the closure with it and `size_of::<sockaddr_in>`. -/
def SocketAddrV4.with_raw (a : SocketAddrV4) (f : sockaddr_in → Nat → R) : Option R :=
  some (f a.to_raw sizeof_sockaddr_in)

/-! ### IPv6 addresses (`src/addr/ipv6.rs`) -/

/-- `SocketAddrV6 { ip: [u8; 16], port: u16, scope_id: u32 }`. -/
structure SocketAddrV6 where
  ip : List Nat
  port : Nat
  scope_id : Nat
deriving DecidableEq, Repr

/-- `libc::sockaddr_in6`; `s6_addr` is the 16-byte address array. -/
structure sockaddr_in6 where
  sin6_family : Nat
  sin6_port : Nat
  sin6_flowinfo : Nat
  s6_addr : List Nat
  sin6_scope_id : Nat
deriving DecidableEq, Repr

/-- `SocketAddrV6::to_raw` (`ipv6.rs:60`). -/
def SocketAddrV6.to_raw (a : SocketAddrV6) : sockaddr_in6 :=
  { sin6_family := AF_INET6
    sin6_port := u16_to_be a.port
    sin6_flowinfo := 0
    s6_addr := a.ip
    sin6_scope_id := a.scope_id }

/-- `SocketAddrV6::from_raw` (`ipv6.rs:73`). -/
def SocketAddrV6.from_raw (r : sockaddr_in6) : SocketAddrV6 :=
  { ip := r.s6_addr
    port := u16_from_be r.sin6_port
    scope_id := r.sin6_scope_id }

/-- `<SocketAddrV6 as ToSockAddr>::with_raw` (`ipv6.rs:117`): always invokes
the closure. -/
def SocketAddrV6.with_raw (a : SocketAddrV6) (f : sockaddr_in6 → Nat → R) : Option R :=
  some (f a.to_raw sizeof_sockaddr_in6)

/-! ### Unix-domain addresses (`src/addr/unix.rs`) -/

/-- `UnixAddr { path: Vec<u8>, is_abstract: bool }`. -/
structure UnixAddr where
  path : List Nat
  is_abstract : Bool
deriving DecidableEq, Repr

/-- `UnixAddr::new` (`unix.rs:21`): filesystem path. -/
def UnixAddr.new (p : List Nat) : UnixAddr := { path := p, is_abstract := false }

/-- `UnixAddr::abstract_socket` (`unix.rs:41`). -/
def UnixAddr.abstract_socket (p : List Nat) : UnixAddr := { path := p, is_abstract := true }

/-- `libc::sockaddr_un`; `sun_path` is the 108-entry `c_char` array, modelled
as a list of the signed byte values. -/
structure sockaddr_un where
  sun_family : Nat
  sun_path : List Int
deriving DecidableEq, Repr

/-- `UnixAddr::to_raw` (`unix.rs:59`).  The source zeroes the struct and then
writes the path bytes with a loop (offset 1 for abstract, offset 0 for
filesystem), leaving the remaining entries zero; the buffer is rendered here
as the corresponding concatenation.  The length guards are exactly the
source's: abstract fails when `path.len() + 1 >= 108`, filesystem when
`path.len() >= 108`. -/
def UnixAddr.to_raw (a : UnixAddr) : Option sockaddr_un :=
  if a.is_abstract then
    if a.path.length + 1 ≥ SUN_PATH_LEN then none
    else some { sun_family := AF_UNIX
                sun_path := 0 :: (a.path.map c_char_of_u8 ++
                  List.replicate (SUN_PATH_LEN - 1 - a.path.length) 0) }
  else
    if a.path.length ≥ SUN_PATH_LEN then none
    else some { sun_family := AF_UNIX
                sun_path := a.path.map c_char_of_u8 ++
                  List.replicate (SUN_PATH_LEN - a.path.length) 0 }

/-- `UnixAddr::from_raw` (`unix.rs:86`).  `sun_path[0] == 0` selects the
abstract branch: the name is `sun_path[1..=len]` where `len` is the position
of the first zero in `sun_path[1..]` (or `sun_path.len() - 1` when none);
otherwise the filesystem path is `sun_path[..len]` for the first zero position
in the whole buffer (or `sun_path.len()`).  The source indexes `sun_path[0]`
on the fixed 108-byte array; `getD` with a nonzero default renders this
totally (the default is irrelevant at length-108 buffers). -/
def UnixAddr.from_raw (raw : sockaddr_un) : UnixAddr :=
  let sp := raw.sun_path
  if sp.getD 0 1 = 0 then
    let tail := sp.drop 1
    let len := (tail.findIdx? (fun c => c == 0)).getD (sp.length - 1)
    { path := (tail.take len).map u8_of_c_char, is_abstract := true }
  else
    let len := (sp.findIdx? (fun c => c == 0)).getD sp.length
    { path := (sp.take len).map u8_of_c_char, is_abstract := false }

/-- `<UnixAddr as ToSockAddr>::with_raw` (`unix.rs:131`): `to_raw()?`, then
the closure is invoked with the raw form and `size_of::<sockaddr_un>`. -/
def UnixAddr.with_raw (a : UnixAddr) (f : sockaddr_un → Nat → R) : Option R :=
  (a.to_raw).map (fun raw => f raw sizeof_sockaddr_un)

/-! ### Error taxonomy (`src/error.rs`)

`SocketError` is parameterized by the address type `A`: the source stores
`format!("{:?}", addr)`; the model carries the address value itself. -/

inductive SocketError (A : Type) where
  | Create (errno : Int)
  | Bind (errno : Int) (addr : A)
  | Listen (errno : Int) (backlog : Int)
  | Connect (errno : Int) (addr : A)
  | Accept (errno : Int)
  | SetOption (errno : Int) (opt : String)
  | GetOption (errno : Int) (opt : String)
  | InvalidAddress (reason : String)
deriving DecidableEq, Repr

inductive IoError where
  | Read (errno : Int)
  | Write (errno : Int)
  | ConnectionClosed
  | WouldBlock
  | Interrupted
deriving DecidableEq, Repr

/-! ### Socket handles (`src/socket/*.rs`)

Each lifecycle state is a thin owner of one descriptor. -/

structure RawSocket where
  fd : Nat
deriving DecidableEq, Repr

structure BoundSocket where
  fd : Nat
deriving DecidableEq, Repr

structure BoundDatagram where
  fd : Nat
deriving DecidableEq, Repr

structure ConnectedStream where
  fd : Nat
deriving DecidableEq, Repr

structure PendingConnect where
  fd : Nat
deriving DecidableEq, Repr

structure Listener where
  fd : Nat
deriving DecidableEq, Repr

/-! ### Lifecycle transitions (`src/socket/raw.rs`)

Each transition is modelled as a function of the marshal-plus-syscall
outcome: `result` is `addr.with_raw(|ptr, len| syscall(...))`, so `none`
means the address failed to marshal and `some r` the syscall's return
value; `errno` is the error number read when `r = -1`. -/

/-- `RawSocket::bind` (`raw.rs:96`): `Some(-1)` ↦ `Bind` error, other
`Some` ↦ `BoundSocket` over the same descriptor, `None` ↦ "address too
long". -/
def RawSocket.bind (s : RawSocket) (addr : A) (result : Option Int) (errno : Int) :
    Except (SocketError A) BoundSocket :=
  match result with
  | some r => if r = -1 then .error (.Bind errno addr) else .ok ⟨s.fd⟩
  | none => .error (.InvalidAddress "address too long")

/-- `RawSocket::connect` (`raw.rs:146`). -/
def RawSocket.connect (s : RawSocket) (addr : A) (result : Option Int) (errno : Int) :
    Except (SocketError A) ConnectedStream :=
  match result with
  | some r => if r = -1 then .error (.Connect errno addr) else .ok ⟨s.fd⟩
  | none => .error (.InvalidAddress "address too long")

/-- `RawSocket::bind_datagram` (`raw.rs:210`). -/
def RawSocket.bind_datagram (s : RawSocket) (addr : A) (result : Option Int) (errno : Int) :
    Except (SocketError A) BoundDatagram :=
  match result with
  | some r => if r = -1 then .error (.Bind errno addr) else .ok ⟨s.fd⟩
  | none => .error (.InvalidAddress "address too long")

/-- Outcome type for `connect_nonblocking`; `panicked` models the
`unreachable!` arm for a `connect` return value other than `0`/`-1`. -/
inductive ConnectNbOutcome (A : Type) where
  | ok (p : PendingConnect)
  | err (e : SocketError A)
  | panicked
deriving DecidableEq, Repr

/-- `RawSocket::connect_nonblocking` (`raw.rs:170`): first
`set_nonblocking(true)?` (`setnb` carries its error when it fails), then
the connect syscall through `with_raw`; `Some(0)` and `Some(-1)` with
`EINPROGRESS` yield a `PendingConnect`, `Some(-1)` otherwise a `Connect`
error, `None` the "address too long" error. -/
def RawSocket.connect_nonblocking (s : RawSocket) (addr : A)
    (setnb : Option (SocketError A)) (result : Option Int) (errno : Int) :
    ConnectNbOutcome A :=
  match setnb with
  | some e => .err e
  | none =>
    match result with
    | some r =>
      if r = 0 then .ok ⟨s.fd⟩
      else if r = -1 then
        if errno = EINPROGRESS then .ok ⟨s.fd⟩ else .err (.Connect errno addr)
      else .panicked
    | none => .err (.InvalidAddress "address too long")

/-! ### Non-blocking accept (`src/socket/listener.rs`) -/

/-- Outcome of the `accept4` syscall in `accept_nonblocking`: on success,
`parsed` is the result of `D::Addr::from_sockaddr` on the filled-in peer
address storage. -/
inductive Accept4Outcome (A : Type) where
  | success (newfd : Nat) (parsed : Option A)
  | fail (errno : Int)
deriving DecidableEq, Repr

/-- `AcceptResult` (`listener.rs:289`). -/
inductive AcceptResult (A : Type) where
  | Connection (stream : ConnectedStream) (addr : A)
  | WouldBlock
  | Interrupted
deriving DecidableEq, Repr

/-- `Listener::accept_nonblocking` (`listener.rs:185`).  Receiver is
`&self`, so the listener value is returned unchanged alongside the
outcome: `EAGAIN` ↦ `WouldBlock`, `EINTR` ↦ `Interrupted`, any other
errno ↦ `Accept` error; on syscall success the peer address is parsed and
a fresh `ConnectedStream` wraps the accepted descriptor. -/
def Listener.accept_nonblocking (l : Listener) (sys : Accept4Outcome A) :
    Listener × Except (SocketError A) (AcceptResult A) :=
  (l,
   match sys with
   | .fail errno =>
     if errno = EAGAIN then .ok .WouldBlock
     else if errno = EINTR then .ok .Interrupted
     else .error (.Accept errno)
   | .success newfd parsed =>
     match parsed with
     | none => .error (.InvalidAddress "invalid client address")
     | some a => .ok (.Connection ⟨newfd⟩ a))

/-! ### PendingConnect call sequences (`src/socket/pending.rs`) -/

inductive PendingOp where
  | takeError
  | finish
deriving DecidableEq, Repr

/-- Receiver kind of each `PendingConnect` method, read off the source
signatures: `take_error(&self)` (`pending.rs:30`) borrows the handle,
`finish(self)` (`pending.rs:58`) consumes it. -/
def PendingOp.consumesSelf : PendingOp → Bool
  | .takeError => false
  | .finish => true

/-- A sequence of method calls on one `PendingConnect` value is well-typed
under Rust's ownership rules iff no call follows one whose receiver is
`self` (a moved-from value has no methods). -/
def legalOpSeq : List PendingOp → Bool
  | [] => true
  | op :: rest => if op.consumesSelf then rest.isEmpty else legalOpSeq rest

/-! ### Batched datagram send (`src/socket/datagram.rs`) -/

/-- `SendMsg` (`options.rs:500`). -/
structure SendMsg (A : Type) where
  buf : List Nat
  addr : A

/-- The address-conversion loop of `sendmmsg` (`datagram.rs:545`).
`marshalLen a` abstracts `a.with_raw(...)`: `none` when marshaling fails
(`with_raw` returns `None` before running the closure), `some l` when the
closure runs with address length `l`.  The closure's own `Option` result —
the `addr_len > size_of::<sockaddr_storage>` guard — is discarded by the
caller, because `ok_or_else` and `?` apply only to `with_raw`'s outer
`Option`; `_inner` records that discarded value. -/
def convertAddrs (marshalLen : A → Option Nat) :
    List (SendMsg A) → Except (SocketError A) Unit
  | [] => .ok ()
  | m :: rest =>
    match marshalLen m.addr with
    | none => .error (.InvalidAddress "address too long")
    | some l =>
      let _inner : Option Unit := if sizeof_sockaddr_storage < l then none else some ()
      convertAddrs marshalLen rest

/-- `BoundDatagram::sendmmsg` (`datagram.rs:524`).  Returns the number of
`sendmmsg` syscalls issued paired with the call's result.  `sent` is the
syscall's return value (`-1` on failure, else the count sent) and `errno`
the error number read on failure; `sent.toNat` models `sent as usize` on
the OS-contract range `sent ≥ 0`. -/
def BoundDatagram.sendmmsg (_s : BoundDatagram) (marshalLen : A → Option Nat)
    (msgs : List (SendMsg A)) (sent : Int) (errno : Int) :
    Nat × Except (SocketError A ⊕ IoError) Nat :=
  if msgs.isEmpty then (0, .ok 0)
  else
    match convertAddrs marshalLen msgs with
    | .error e => (0, .error (.inl e))
    | .ok _ => (1, if sent = -1 then .error (.inr (.Write errno)) else .ok sent.toNat)

/-- The `with_raw` length behavior of `UnixAddr` (`unix.rs:131`): the
closure receives `size_of::<sockaddr_un>` when `to_raw` succeeds, and is
never run otherwise. -/
def unixMarshalLen (a : UnixAddr) : Option Nat :=
  a.to_raw.map (fun _ => sizeof_sockaddr_un)

/-- The `with_raw` length behavior of `SocketAddrV4` (`ipv4.rs:73`). -/
def v4MarshalLen (_a : SocketAddrV4) : Option Nat := some sizeof_sockaddr_in

/-- The `with_raw` length behavior of `SocketAddrV6` (`ipv6.rs:117`). -/
def v6MarshalLen (_a : SocketAddrV6) : Option Nat := some sizeof_sockaddr_in6

/-! ### Descriptor passing (`src/socket/options.rs`) -/

/-- A received ancillary control message: level, type, carried descriptor. -/
structure CMsg where
  cmsg_level : Int
  cmsg_type : Int
  fd : Nat
deriving DecidableEq, Repr

/-- `recv_fd` (`options.rs:460`).  `sysret` is `recvmsg`'s return value and
`errno` the error number on failure; `cmsg` is the first control message of
the received header (`CMSG_FIRSTHDR`), `none` when absent. -/
def recv_fd (sysret : Int) (errno : Int) (cmsg : Option CMsg) :
    Except (SocketError Unit ⊕ IoError) Nat :=
  if sysret = -1 then .error (.inr (.Read errno))
  else
    match cmsg with
    | none => .error (.inl (.InvalidAddress "no control message received"))
    | some c =>
      if c.cmsg_level ≠ SOL_SOCKET ∨ c.cmsg_type ≠ SCM_RIGHTS then
        .error (.inl (.InvalidAddress "unexpected control message type"))
      else .ok c.fd

/-! ### Helper lemmas -/

lemma u16_from_be_u16_to_be (p : Nat) (h : p < 65536) : u16_from_be (u16_to_be p) = p := by
  unfold u16_to_be u16_from_be
  have hd : p / 256 < 256 := by omega
  have e1 : p / 256 % 256 = p / 256 := Nat.mod_eq_of_lt hd
  rw [e1]
  have e2 : (p % 256 * 256 + p / 256) % 256 = p / 256 := by omega
  have e3 : (p % 256 * 256 + p / 256) / 256 = p % 256 := by omega
  rw [e2, e3]
  omega

lemma u8_of_c_char_of_u8 {b : Nat} (hb : b < 256) : u8_of_c_char (c_char_of_u8 b) = b := by
  unfold c_char_of_u8 u8_of_c_char
  split <;> omega

lemma c_char_of_u8_eq_zero {b : Nat} (hb : b < 256) : c_char_of_u8 b = 0 ↔ b = 0 := by
  unfold c_char_of_u8
  split <;> omega

lemma map_u8_of_c_char_map (l : List Nat) (hb : ∀ b ∈ l, b < 256) :
    (l.map c_char_of_u8).map u8_of_c_char = l := by
  induction l with
  | nil => rfl
  | cons b t ih =>
    have h1 : b < 256 := hb b (List.mem_cons_self _ _)
    have h2 : ∀ x ∈ t, x < 256 := fun x hx => hb x (List.mem_cons_of_mem _ hx)
    simp [u8_of_c_char_of_u8 h1, ih h2]

lemma findIdx?_map_append_zeros (p : List Nat) (hb : ∀ b ∈ p, b < 256) (m : Nat) (hm : 1 ≤ m) :
    ((p.map c_char_of_u8 ++ List.replicate m 0).findIdx? (fun c => c == 0))
      = some (p.findIdx (fun b => b == 0)) := by
  induction p with
  | nil =>
    obtain ⟨k, rfl⟩ : ∃ k, m = k + 1 := ⟨m - 1, by omega⟩
    simp [List.replicate_succ]
  | cons b t ih =>
    have h1 : b < 256 := hb b (List.mem_cons_self _ _)
    have h2 : ∀ x ∈ t, x < 256 := fun x hx => hb x (List.mem_cons_of_mem _ hx)
    by_cases h0 : b = 0
    · subst h0
      simp [c_char_of_u8, List.findIdx_cons]
    · have hc : (c_char_of_u8 b == 0) = false := by
        simp only [beq_eq_false_iff_ne, ne_eq]
        exact fun h => h0 ((c_char_of_u8_eq_zero h1).mp h)
      have hcn : (b == 0) = false := by simp [h0]
      simp [List.findIdx?_cons, List.findIdx_cons, hc, hcn, List.findIdx?_succ, ih h2]

lemma u32_bytes_roundtrip (a b c d : Nat) (ha : a < 256) (hb : b < 256) (hc : c < 256)
    (hd : d < 256) :
    u32_to_ne_bytes (u32_swap_bytes (u32_from_be_bytes [a, b, c, d])) = [a, b, c, d] := by
  unfold u32_from_be_bytes u32_swap_bytes u32_to_ne_bytes
  have d1 : (((a * 256 + b) * 256 + c) * 256 + d) / 256 = (a * 256 + b) * 256 + c := by omega
  have d2 : (((a * 256 + b) * 256 + c) * 256 + d) / 65536 = a * 256 + b := by omega
  have d3 : (((a * 256 + b) * 256 + c) * 256 + d) / 16777216 = a := by omega
  have h1 : (((a * 256 + b) * 256 + c) * 256 + d) % 256 = d := by omega
  have h2 : (((a * 256 + b) * 256 + c) * 256 + d) / 256 % 256 = c := by rw [d1]; omega
  have h3 : (((a * 256 + b) * 256 + c) * 256 + d) / 65536 % 256 = b := by rw [d2]; omega
  have h4 : (((a * 256 + b) * 256 + c) * 256 + d) / 16777216 % 256 = a := by rw [d3]; omega
  rw [h1, h2, h3, h4]
  have e1 : (d * 16777216 + c * 65536 + b * 256 + a) / 256 = d * 65536 + c * 256 + b := by
    omega
  have e2 : (d * 16777216 + c * 65536 + b * 256 + a) / 65536 = d * 256 + c := by omega
  have e3 : (d * 16777216 + c * 65536 + b * 256 + a) / 16777216 = d := by omega
  have g1 : (d * 16777216 + c * 65536 + b * 256 + a) % 256 = a := by omega
  have g2 : (d * 16777216 + c * 65536 + b * 256 + a) / 256 % 256 = b := by rw [e1]; omega
  have g3 : (d * 16777216 + c * 65536 + b * 256 + a) / 65536 % 256 = c := by rw [e2]; omega
  have g4 : (d * 16777216 + c * 65536 + b * 256 + a) / 16777216 % 256 = d := by rw [e3]; omega
  rw [g1, g2, g3, g4]

lemma v4_roundtrip (a b c d port : Nat) (ha : a < 256) (hb : b < 256) (hc : c < 256)
    (hd : d < 256) (hp : port < 65536) :
    SocketAddrV4.from_raw (SocketAddrV4.to_raw ⟨[a, b, c, d], port⟩) = ⟨[a, b, c, d], port⟩ := by
  unfold SocketAddrV4.to_raw SocketAddrV4.from_raw
  simp only [u32_bytes_roundtrip a b c d ha hb hc hd, u16_from_be_u16_to_be port hp]

lemma v6_roundtrip (a : SocketAddrV6) (hp : a.port < 65536) :
    SocketAddrV6.from_raw (SocketAddrV6.to_raw a) = a := by
  unfold SocketAddrV6.to_raw SocketAddrV6.from_raw
  simp [u16_from_be_u16_to_be a.port hp]

lemma unix_abstract_to_raw (p : List Nat) (hlen : p.length ≤ 106) :
    (UnixAddr.abstract_socket p).to_raw
      = some ⟨AF_UNIX, 0 :: (p.map c_char_of_u8 ++ List.replicate (107 - p.length) 0)⟩ := by
  unfold UnixAddr.to_raw UnixAddr.abstract_socket SUN_PATH_LEN
  simp only [if_true]
  rw [if_neg (by simp; omega)]

lemma unix_fs_to_raw (p : List Nat) (hlen : p.length ≤ 107) :
    (UnixAddr.new p).to_raw
      = some ⟨AF_UNIX, p.map c_char_of_u8 ++ List.replicate (108 - p.length) 0⟩ := by
  unfold UnixAddr.to_raw UnixAddr.new SUN_PATH_LEN
  simp only [Bool.false_eq_true, if_false]
  rw [if_neg (by simp; omega)]

lemma unix_from_raw_zero_head (rest : List Int) :
    UnixAddr.from_raw ⟨AF_UNIX, (0 : Int) :: rest⟩
      = { path := (rest.take ((rest.findIdx? (fun c => c == 0)).getD rest.length)).map
            u8_of_c_char,
          is_abstract := true } := by
  unfold UnixAddr.from_raw
  simp

lemma unix_from_raw_nonzero_head (c0 : Int) (h : c0 ≠ 0) (rest : List Int) :
    UnixAddr.from_raw ⟨AF_UNIX, c0 :: rest⟩
      = { path := ((c0 :: rest).take
            (((c0 :: rest).findIdx? (fun c => c == 0)).getD (c0 :: rest).length)).map
            u8_of_c_char,
          is_abstract := false } := by
  unfold UnixAddr.from_raw
  simp [h]

/-- Marshal-then-unmarshal for an abstract `UnixAddr`: the reconstructed name
is the original truncated at its first zero byte (the whole name when it has
no zero byte, since `List.findIdx` returns the length then). -/
lemma unix_abstract_roundtrip (p : List Nat) (hb : ∀ b ∈ p, b < 256)
    (hlen : p.length ≤ 106) :
    (UnixAddr.abstract_socket p).to_raw.map UnixAddr.from_raw
      = some (UnixAddr.abstract_socket (p.take (p.findIdx (fun b => b == 0)))) := by
  rw [unix_abstract_to_raw p hlen]
  rw [Option.map_some']
  simp only [unix_from_raw_zero_head]
  rw [findIdx?_map_append_zeros p hb (107 - p.length) (by omega)]
  have hj : p.findIdx (fun b => b == 0) ≤ p.length := List.findIdx_le_length _
  have hA : (p.map c_char_of_u8).length = p.length := List.length_map _ _
  simp only [Option.getD_some]
  rw [List.take_append_eq_append_take, Nat.sub_eq_zero_of_le (by omega), List.take_zero,
    List.append_nil, ← List.map_take,
    map_u8_of_c_char_map _ (fun x hx => hb x (List.take_subset _ _ hx))]
  rfl

/-- Marshal-then-unmarshal for a filesystem `UnixAddr` whose first byte is
nonzero: the reconstructed path is the original truncated at its first zero
byte. -/
lemma unix_fs_roundtrip (b₀ : Nat) (t : List Nat) (hb : ∀ b ∈ b₀ :: t, b < 256)
    (h0 : b₀ ≠ 0) (hlen : (b₀ :: t).length ≤ 107) :
    (UnixAddr.new (b₀ :: t)).to_raw.map UnixAddr.from_raw
      = some (UnixAddr.new
          ((b₀ :: t).take ((b₀ :: t).findIdx (fun b => b == 0)))) := by
  rw [unix_fs_to_raw _ hlen]
  have hb0 : b₀ < 256 := hb b₀ (List.mem_cons_self _ _)
  have hcc : c_char_of_u8 b₀ ≠ 0 := fun h => h0 ((c_char_of_u8_eq_zero hb0).mp h)
  have hshape : (b₀ :: t).map c_char_of_u8 ++ List.replicate (108 - (b₀ :: t).length) 0
      = c_char_of_u8 b₀ :: (t.map c_char_of_u8 ++ List.replicate (108 - (b₀ :: t).length) 0) := by
    simp
  rw [Option.map_some', hshape, unix_from_raw_nonzero_head _ hcc, ← hshape]
  rw [findIdx?_map_append_zeros _ hb (108 - (b₀ :: t).length) (by omega)]
  have hj : (b₀ :: t).findIdx (fun b => b == 0) ≤ (b₀ :: t).length := List.findIdx_le_length _
  have hA : ((b₀ :: t).map c_char_of_u8).length = (b₀ :: t).length := List.length_map _ _
  simp only [Option.getD_some]
  rw [List.take_append_eq_append_take, Nat.sub_eq_zero_of_le (by omega), List.take_zero,
    List.append_nil, ← List.map_take,
    map_u8_of_c_char_map _ (fun x hx => hb x (List.take_subset _ _ hx))]
  rfl

lemma findIdx_eq_length_of_no_zero (p : List Nat) (hz : ∀ b ∈ p, b ≠ 0) :
    p.findIdx (fun b => b == 0) = p.length :=
  List.findIdx_eq_length_of_false (fun x hx => by simp [hz x hx])

/-- A length-108 abstract buffer (`0 ::` name `++` zeros) differs from the
filesystem buffer (name `++` zeros) as soon as the name has a nonzero byte. -/
lemma cons_zero_append_ne (A : List Int) (hA : ∃ x ∈ A, x ≠ 0) (z1 z2 : Nat) :
    (0 : Int) :: (A ++ List.replicate z1 0) ≠ A ++ List.replicate z2 0 := by
  induction A with
  | nil => simp at hA
  | cons a A' ih =>
    intro h
    rw [List.cons_append] at h
    injection h with h1 h2
    obtain ⟨x, hx, hxne⟩ := hA
    rcases List.mem_cons.mp hx with rfl | hx'
    · exact hxne h1.symm
    · rw [← h1] at h2
      exact ih ⟨x, hx', hxne⟩ h2

/-! ### Claim theorems -/

/-- C1 counterexample: the empty filesystem path is a constructible
`UnixAddr` (`UnixAddr::new("")`) whose marshal succeeds, yet
unmarshal-of-marshal returns the abstract empty-name address, not the
original: the `is_abstract` flag is not preserved, so the universal
round-trip claim fails. -/
theorem C1_counterexample :
    (UnixAddr.new []).to_raw.map UnixAddr.from_raw = some (UnixAddr.abstract_socket [])
    ∧ UnixAddr.abstract_socket [] ≠ UnixAddr.new [] := by
  exact ⟨by decide, by decide⟩

/-- C1 (amended): marshal-then-unmarshal returns the original address for
every `SocketAddrV4` (4 in-range ip bytes, 16-bit port) and every
`SocketAddrV6` (16-bit port); for Unix addresses it does so whenever
marshaling succeeds, provided the path bytes contain no zero byte and, for
filesystem addresses, the path is non-empty (abstract names of length
≤ 106, filesystem paths of length ≤ 107). -/
theorem C1_roundtrip_amended :
    (∀ a b c d port : Nat, a < 256 → b < 256 → c < 256 → d < 256 → port < 65536 →
      SocketAddrV4.from_raw (SocketAddrV4.to_raw ⟨[a, b, c, d], port⟩) = ⟨[a, b, c, d], port⟩)
    ∧ (∀ v6 : SocketAddrV6, v6.port < 65536 →
        SocketAddrV6.from_raw (SocketAddrV6.to_raw v6) = v6)
    ∧ (∀ p : List Nat, (∀ b ∈ p, b < 256) → (∀ b ∈ p, b ≠ 0) → p.length ≤ 106 →
        (UnixAddr.abstract_socket p).to_raw.map UnixAddr.from_raw
          = some (UnixAddr.abstract_socket p))
    ∧ (∀ b₀ : Nat, ∀ t : List Nat,
        (∀ b ∈ b₀ :: t, b < 256) → (∀ b ∈ b₀ :: t, b ≠ 0) → (b₀ :: t).length ≤ 107 →
        (UnixAddr.new (b₀ :: t)).to_raw.map UnixAddr.from_raw
          = some (UnixAddr.new (b₀ :: t))) := by
  refine ⟨fun a b c d port ha hb hc hd hp => v4_roundtrip a b c d port ha hb hc hd hp,
    fun v6 hp => v6_roundtrip v6 hp, fun p hb hz hlen => ?_, fun b₀ t hb hz hlen => ?_⟩
  · rw [unix_abstract_roundtrip p hb hlen, findIdx_eq_length_of_no_zero p hz,
      List.take_length]
  · rw [unix_fs_roundtrip b₀ t hb (hz b₀ (List.mem_cons_self _ _)) hlen,
      findIdx_eq_length_of_no_zero _ hz, List.take_length]

/-- C1 witness: the amended round trip at concrete addresses of every
family. -/
theorem C1_witness :
    SocketAddrV4.from_raw (SocketAddrV4.to_raw ⟨[127, 0, 0, 1], 8080⟩) = ⟨[127, 0, 0, 1], 8080⟩
    ∧ SocketAddrV6.from_raw (SocketAddrV6.to_raw ⟨[0, 0, 0, 0, 0, 0, 0, 0, 0, 0, 0, 0, 0, 0, 0, 1], 443, 2⟩)
        = ⟨[0, 0, 0, 0, 0, 0, 0, 0, 0, 0, 0, 0, 0, 0, 0, 1], 443, 2⟩
    ∧ (UnixAddr.abstract_socket [119, 108]).to_raw.map UnixAddr.from_raw
        = some (UnixAddr.abstract_socket [119, 108])
    ∧ (UnixAddr.new [47, 116, 109, 112]).to_raw.map UnixAddr.from_raw
        = some (UnixAddr.new [47, 116, 109, 112]) := by
  refine ⟨C1_roundtrip_amended.1 127 0 0 1 8080 (by decide) (by decide) (by decide) (by decide)
      (by decide),
    C1_roundtrip_amended.2.1 ⟨[0, 0, 0, 0, 0, 0, 0, 0, 0, 0, 0, 0, 0, 0, 0, 1], 443, 2⟩ (by decide),
    C1_roundtrip_amended.2.2.1 [119, 108] (by decide) (by decide) (by decide),
    C1_roundtrip_amended.2.2.2 47 [116, 109, 112] (by decide) (by decide) (by decide)⟩

/-- C2: marshaling a Unix address succeeds exactly up to the platform limit
(108-byte `sun_path`): filesystem paths up to length 107 (= limit − 1)
succeed and length ≥ 108 fails with `None` (no truncation — `to_raw` never
produces a shortened buffer, cf. the round-trip lemmas), abstract names up
to length 106 (= limit − 2) succeed and longer ones fail. -/
theorem C2_unix_length_boundary :
    ∀ p : List Nat,
      ((UnixAddr.new p).to_raw.isSome ↔ p.length ≤ SUN_PATH_LEN - 1)
      ∧ ((UnixAddr.abstract_socket p).to_raw.isSome ↔ p.length ≤ SUN_PATH_LEN - 2) := by
  intro p
  unfold UnixAddr.to_raw UnixAddr.new UnixAddr.abstract_socket SUN_PATH_LEN
  constructor
  · simp only [Bool.false_eq_true, if_false]
    split <;> simp <;> omega
  · simp only [if_true]
    split <;> simp <;> omega

/-- C3 counterexample: the abstract name `[65, 0, 66]` (embedded null)
marshals fine but unmarshals to `[65]` — the bytes after the first null are
lost, not "the original bytes up to the buffer bound"; moreover for the
all-zero name `[0]` the abstract and filesystem marshaled forms coincide,
so distinctness also fails in general. -/
theorem C3_counterexample :
    (UnixAddr.abstract_socket [65, 0, 66]).to_raw.map UnixAddr.from_raw
        = some (UnixAddr.abstract_socket [65])
    ∧ UnixAddr.abstract_socket [65] ≠ UnixAddr.abstract_socket [65, 0, 66]
    ∧ (UnixAddr.abstract_socket [0]).to_raw = (UnixAddr.new [0]).to_raw := by
  exact ⟨by decide, by decide, by decide⟩

/-- C3 (amended): an abstract name containing an embedded null byte, when
marshaled and unmarshaled, yields the original bytes truncated at the first
null (not up to the buffer bound); and whenever the name also contains a
nonzero byte its abstract marshaled form is distinct from the
filesystem-path marshaled form of the same bytes. -/
theorem C3_abstract_roundtrip_amended :
    (∀ p : List Nat, (∀ b ∈ p, b < 256) → p.length ≤ SUN_PATH_LEN - 2 → (0 : Nat) ∈ p →
      (UnixAddr.abstract_socket p).to_raw.map UnixAddr.from_raw
        = some (UnixAddr.abstract_socket (p.take (p.findIdx (fun b => b == 0)))))
    ∧ (∀ p : List Nat, (∀ b ∈ p, b < 256) → p.length ≤ SUN_PATH_LEN - 2 →
        (∃ b ∈ p, b ≠ 0) →
        (UnixAddr.abstract_socket p).to_raw ≠ (UnixAddr.new p).to_raw) := by
  constructor
  · intro p hb hlen _
    exact unix_abstract_roundtrip p hb hlen
  · intro p hb hlen hnz h
    rw [unix_abstract_to_raw p hlen, unix_fs_to_raw p (by
      unfold SUN_PATH_LEN at hlen
      omega)] at h
    injection h with h'
    injection h' with hfam hpath
    refine cons_zero_append_ne (p.map c_char_of_u8) ?_ (107 - p.length)
      (108 - p.length) ?_
    · obtain ⟨b, hbp, hbne⟩ := hnz
      exact ⟨c_char_of_u8 b, List.mem_map_of_mem _ hbp,
        fun hc => hbne ((c_char_of_u8_eq_zero (hb b hbp)).mp hc)⟩
    · exact hpath

/-- C3 witness: the amended statement at the name `[65, 0, 66]`. -/
theorem C3_witness :
    (UnixAddr.abstract_socket [65, 0, 66]).to_raw.map UnixAddr.from_raw
        = some (UnixAddr.abstract_socket [65])
    ∧ (UnixAddr.abstract_socket [65, 0, 66]).to_raw ≠ (UnixAddr.new [65, 0, 66]).to_raw := by
  constructor
  · exact (C3_abstract_roundtrip_amended.1 [65, 0, 66] (by decide) (by decide)
      (by decide)).trans (by decide)
  · exact C3_abstract_roundtrip_amended.2 [65, 0, 66] (by decide) (by decide)
      ⟨65, by decide, by decide⟩

/-- C4 counterexample: `take_error` (the completion probe) takes `&self`,
not `self`, so the call sequence probe-probe on one `PendingConnect` is
well-typed — a second probe is possible, contradicting "the probe can be
performed at most once ... a type-level impossibility". -/
theorem C4_counterexample :
    legalOpSeq [PendingOp.takeError, PendingOp.takeError] = true
    ∧ [PendingOp.takeError, PendingOp.takeError].count PendingOp.takeError = 2 := by
  exact ⟨by decide, by decide⟩

/-- C4 (amended): only `finish` consumes the `PendingConnect`, so in every
well-typed call sequence `finish` occurs at most once and nothing follows
it; the probe (`take_error`) borrows the handle, so repeated probes are
type-level legal and "call once" is only a documented caveat
(`pending.rs:29`). -/
theorem C4_finish_consumes_amended :
    ∀ ops : List PendingOp, legalOpSeq ops = true →
      ops.count PendingOp.finish ≤ 1
      ∧ (∀ pre post : List PendingOp, ops = pre ++ PendingOp.finish :: post → post = []) := by
  intro ops
  induction ops with
  | nil =>
    intro _
    refine ⟨by simp, fun pre post h => ?_⟩
    exact absurd h.symm (List.append_ne_nil_of_right_ne_nil _ (List.cons_ne_nil _ _))
  | cons op rest ih =>
    intro hlegal
    cases op with
    | finish =>
      have hrest : rest = [] := by
        unfold legalOpSeq at hlegal
        simpa [PendingOp.consumesSelf, List.isEmpty_iff] using hlegal
      subst hrest
      refine ⟨by simp, fun pre post h => ?_⟩
      cases pre with
      | nil =>
        simpa using h
      | cons x pre' =>
        rw [List.cons_append] at h
        injection h with h1 h2
        exact absurd h2.symm (List.append_ne_nil_of_right_ne_nil _ (List.cons_ne_nil _ _))
    | takeError =>
      have hrest : legalOpSeq rest = true := by
        unfold legalOpSeq at hlegal
        simpa [PendingOp.consumesSelf] using hlegal
      obtain ⟨ihc, ihs⟩ := ih hrest
      refine ⟨by simpa [List.count_cons] using ihc, fun pre post h => ?_⟩
      cases pre with
      | nil =>
        simp only [List.nil_append] at h
        injection h with h1 h2
        exact absurd h1 (by decide)
      | cons x pre' =>
        rw [List.cons_append] at h
        injection h with h1 h2
        exact ihs pre' post h2

/-- C4 witness: the amended statement at the sequence probe-then-finish. -/
theorem C4_witness :
    [PendingOp.takeError, PendingOp.finish].count PendingOp.finish ≤ 1 :=
  (C4_finish_consumes_amended [PendingOp.takeError, PendingOp.finish] (by decide)).1

/-- C5: `accept_nonblocking` maps the `EAGAIN` failure to the non-error
outcome `WouldBlock` and `EINTR` to `Interrupted`, returns a genuine
`Accept` error carrying any other errno, wraps the accepted descriptor and
parsed peer address in `Connection` on success, and — taking `&self` —
leaves the listener unchanged (usable afterward). -/
theorem C5_accept_nonblocking_outcomes :
    ∀ (A : Type) (l : Listener) (sys : Accept4Outcome A),
      (l.accept_nonblocking sys).1 = l
      ∧ (sys = .fail EAGAIN →
          (l.accept_nonblocking sys).2 = .ok AcceptResult.WouldBlock)
      ∧ (sys = .fail EINTR →
          (l.accept_nonblocking sys).2 = .ok AcceptResult.Interrupted)
      ∧ (∀ e : Int, sys = .fail e → e ≠ EAGAIN → e ≠ EINTR →
          (l.accept_nonblocking sys).2 = .error (.Accept e))
      ∧ (∀ (newfd : Nat) (a : A), sys = .success newfd (some a) →
          (l.accept_nonblocking sys).2 = .ok (.Connection ⟨newfd⟩ a)) := by
  intro A l sys
  refine ⟨rfl, ?_, ?_, ?_, ?_⟩
  · rintro rfl
    simp [Listener.accept_nonblocking]
  · rintro rfl
    simp [Listener.accept_nonblocking, EINTR, EAGAIN]
  · rintro e rfl he1 he2
    simp [Listener.accept_nonblocking, he1, he2]
  · rintro newfd a rfl
    simp [Listener.accept_nonblocking]

/-- C5 witness: the outcomes at a concrete listener, for `EAGAIN`,
`EINTR`, a genuine errno, and a successful accept. -/
theorem C5_witness :
    ((Listener.mk 3).accept_nonblocking (.fail EAGAIN : Accept4Outcome Unit)).1 = Listener.mk 3
    ∧ ((Listener.mk 3).accept_nonblocking (.fail EAGAIN : Accept4Outcome Unit)).2
        = .ok AcceptResult.WouldBlock
    ∧ ((Listener.mk 3).accept_nonblocking (.fail EINTR : Accept4Outcome Unit)).2
        = .ok AcceptResult.Interrupted
    ∧ ((Listener.mk 3).accept_nonblocking (.fail 13 : Accept4Outcome Unit)).2
        = .error (.Accept 13)
    ∧ ((Listener.mk 3).accept_nonblocking (.success 7 (some ()) : Accept4Outcome Unit)).2
        = .ok (.Connection ⟨7⟩ ()) := by
  refine ⟨(C5_accept_nonblocking_outcomes Unit ⟨3⟩ (.fail EAGAIN)).1,
    (C5_accept_nonblocking_outcomes Unit ⟨3⟩ (.fail EAGAIN)).2.1 rfl,
    (C5_accept_nonblocking_outcomes Unit ⟨3⟩ (.fail EINTR)).2.2.1 rfl,
    (C5_accept_nonblocking_outcomes Unit ⟨3⟩ (.fail 13)).2.2.2.1 13 rfl (by decide) (by decide),
    (C5_accept_nonblocking_outcomes Unit ⟨3⟩ (.success 7 (some ()))).2.2.2.2 7 () rfl⟩

/-- C6: with `set_nonblocking` succeeded, `connect_nonblocking` yields a
`PendingConnect` (over the same descriptor) exactly when the connect
syscall returned `0` (immediate success) or `-1` with `EINPROGRESS`; a
`-1` with any other errno is reported immediately as a `Connect` error
carrying that errno and the attempted address, and a marshal failure as
the invalid-address error. -/
theorem C6_connect_nonblocking_pending :
    ∀ (A : Type) (s : RawSocket) (addr : A) (result : Option Int) (errno : Int),
      (s.connect_nonblocking addr none result errno = .ok ⟨s.fd⟩
          ↔ (result = some 0 ∨ (result = some (-1) ∧ errno = EINPROGRESS)))
      ∧ (result = some (-1) → errno ≠ EINPROGRESS →
          s.connect_nonblocking addr none result errno = .err (.Connect errno addr))
      ∧ (result = none →
          s.connect_nonblocking addr none result errno
            = .err (.InvalidAddress "address too long")) := by
  intro A s addr result errno
  refine ⟨⟨?_, ?_⟩, ?_, ?_⟩
  · intro h
    unfold RawSocket.connect_nonblocking at h
    cases result with
    | none => simp at h
    | some r =>
      by_cases h0 : r = 0
      · exact Or.inl (by rw [h0])
      · by_cases h1 : r = -1
        · by_cases h2 : errno = EINPROGRESS
          · exact Or.inr ⟨by rw [h1], h2⟩
          · simp [h0, h1, h2] at h
        · simp [h0, h1] at h
  · rintro (rfl | ⟨rfl, rfl⟩)
    · simp [RawSocket.connect_nonblocking]
    · simp [RawSocket.connect_nonblocking]
  · rintro rfl h2
    simp [RawSocket.connect_nonblocking, h2]
  · rintro rfl
    simp [RawSocket.connect_nonblocking]

/-- C6 witness: concrete instances — immediate success, `EINPROGRESS`,
a refused connection (`ECONNREFUSED` = 111), and the reverse direction of
the iff. -/
theorem C6_witness :
    (RawSocket.mk 5).connect_nonblocking (0 : Nat) none (some 0) 0 = .ok ⟨5⟩
    ∧ (RawSocket.mk 5).connect_nonblocking (0 : Nat) none (some (-1)) EINPROGRESS = .ok ⟨5⟩
    ∧ (RawSocket.mk 5).connect_nonblocking (0 : Nat) none (some (-1)) 111
        = .err (.Connect 111 0) := by
  refine ⟨((C6_connect_nonblocking_pending Nat ⟨5⟩ 0 (some 0) 0).1).mpr (Or.inl rfl),
    ((C6_connect_nonblocking_pending Nat ⟨5⟩ 0 (some (-1)) EINPROGRESS).1).mpr
      (Or.inr ⟨rfl, rfl⟩),
    (C6_connect_nonblocking_pending Nat ⟨5⟩ 0 (some (-1)) 111).2.1 rfl (by decide)⟩

lemma convertAddrs_ok {A : Type} (marshalLen : A → Option Nat) (msgs : List (SendMsg A))
    (h : ∀ m ∈ msgs, (marshalLen m.addr).isSome) :
    convertAddrs marshalLen msgs = .ok () := by
  induction msgs with
  | nil => rfl
  | cons m rest ih =>
    have hm := h m (List.mem_cons_self _ _)
    obtain ⟨l, hl⟩ := Option.isSome_iff_exists.mp hm
    unfold convertAddrs
    rw [hl]
    exact ih (fun x hx => h x (List.mem_cons_of_mem _ hx))

lemma convertAddrs_err {A : Type} (marshalLen : A → Option Nat) (msgs : List (SendMsg A))
    (h : ∃ m ∈ msgs, marshalLen m.addr = none) :
    convertAddrs marshalLen msgs = .error (.InvalidAddress "address too long") := by
  induction msgs with
  | nil => simp at h
  | cons m rest ih =>
    unfold convertAddrs
    cases hm : marshalLen m.addr with
    | none => rfl
    | some l =>
      obtain ⟨x, hx, hxn⟩ := h
      rcases List.mem_cons.mp hx with rfl | hx'
      · rw [hm] at hxn
        exact absurd hxn (by simp)
      · exact ih ⟨x, hx', hxn⟩

/-- C7 counterexample: a single message addressed to a Unix path of length
108 (which fails to marshal — its marshaled length never exceeds the
`sockaddr_storage` buffer, because it has no marshaled form at all) makes
`sendmmsg` return the address error having issued zero send syscalls,
where the claim's "otherwise" branch demands exactly one syscall and the
OS count; an empty message sequence likewise returns without any
syscall. -/
theorem C7_counterexample :
    (BoundDatagram.mk 3).sendmmsg unixMarshalLen
        [⟨[1], UnixAddr.new (List.replicate 108 65)⟩] 1 0
      = (0, .error (.inl (.InvalidAddress "address too long")))
    ∧ (BoundDatagram.mk 3).sendmmsg unixMarshalLen ([] : List (SendMsg UnixAddr)) 1 0
      = (0, .ok 0) := by
  exact ⟨rfl, rfl⟩

/-- C7 (amended): for a nonempty message sequence in which every
destination marshals, `sendmmsg` issues exactly one syscall and returns
the count the OS reports (or the write error when the syscall fails); if
some destination fails to marshal (Unix path too long), the address error
is reported with no syscall issued; an empty sequence returns 0 sent with
no syscall.  The marshaled length of each family (110, 16, 28 bytes) never
exceeds the 128-byte `sockaddr_storage` entry, so the in-loop length guard
(whose result the source discards) cannot fire for these families. -/
theorem C7_sendmmsg_amended :
    ∀ (A : Type) (s : BoundDatagram) (marshalLen : A → Option Nat)
      (msgs : List (SendMsg A)) (sent : Int) (errno : Int),
      (msgs = [] → s.sendmmsg marshalLen msgs sent errno = (0, .ok 0))
      ∧ (msgs ≠ [] → (∀ m ∈ msgs, (marshalLen m.addr).isSome) →
          s.sendmmsg marshalLen msgs sent errno
            = (1, if sent = -1 then .error (.inr (.Write errno)) else .ok sent.toNat))
      ∧ (msgs ≠ [] → (∃ m ∈ msgs, marshalLen m.addr = none) →
          s.sendmmsg marshalLen msgs sent errno
            = (0, .error (.inl (.InvalidAddress "address too long"))))
      ∧ (∀ (a : UnixAddr) (l : Nat), unixMarshalLen a = some l → l ≤ sizeof_sockaddr_storage)
      ∧ (∀ a : SocketAddrV4, v4MarshalLen a = some sizeof_sockaddr_in
          ∧ sizeof_sockaddr_in ≤ sizeof_sockaddr_storage)
      ∧ (∀ a : SocketAddrV6, v6MarshalLen a = some sizeof_sockaddr_in6
          ∧ sizeof_sockaddr_in6 ≤ sizeof_sockaddr_storage) := by
  intro A s marshalLen msgs sent errno
  refine ⟨fun h => ?_, fun hne hall => ?_, fun hne hex => ?_, fun a l hl => ?_,
    fun a => ⟨rfl, by decide⟩, fun a => ⟨rfl, by decide⟩⟩
  · subst h
    rfl
  · unfold BoundDatagram.sendmmsg
    rw [if_neg (by simpa [List.isEmpty_iff] using hne), convertAddrs_ok marshalLen msgs hall]
  · unfold BoundDatagram.sendmmsg
    rw [if_neg (by simpa [List.isEmpty_iff] using hne), convertAddrs_err marshalLen msgs hex]
  · unfold unixMarshalLen at hl
    rcases Option.map_eq_some'.mp hl with ⟨raw, _, hr⟩
    rw [← hr]
    decide

/-- C7 witness: the amended behavior at concrete message sequences: one
message to a valid Unix path (one syscall, OS said 1 sent), and one
message to an over-long Unix path (no syscall, address error). -/
theorem C7_witness :
    (BoundDatagram.mk 4).sendmmsg unixMarshalLen [⟨[1, 2], UnixAddr.new [47]⟩] 1 0
      = (1, .ok 1)
    ∧ (BoundDatagram.mk 4).sendmmsg unixMarshalLen
        [⟨[9], UnixAddr.abstract_socket (List.replicate 107 66)⟩] 1 0
      = (0, .error (.inl (.InvalidAddress "address too long"))) := by
  constructor
  · exact ((C7_sendmmsg_amended UnixAddr ⟨4⟩ unixMarshalLen [⟨[1, 2], UnixAddr.new [47]⟩]
      1 0).2.1 (List.cons_ne_nil _ _)
      (fun m hm => by rw [List.mem_singleton.mp hm]; rfl)).trans rfl
  · exact (C7_sendmmsg_amended UnixAddr ⟨4⟩ unixMarshalLen
      [⟨[9], UnixAddr.abstract_socket (List.replicate 107 66)⟩] 1 0).2.2.1
      (List.cons_ne_nil _ _)
      ⟨⟨[9], UnixAddr.abstract_socket (List.replicate 107 66)⟩, List.mem_singleton.mpr rfl,
        rfl⟩

/-- C8: `recv_fd` returns the OS-level read failure carrying the errno
exactly when `recvmsg` itself fails; a successful syscall with no control
message, or one whose level/type is not `SOL_SOCKET`/`SCM_RIGHTS`, yields
the distinct invalid-state failure (the `InvalidAddress` variant, which
carries no OS error number); a descriptor is returned only for a
well-formed `SCM_RIGHTS` message. -/
theorem C8_recv_fd_failure_kinds :
    ∀ (sysret errno : Int) (cmsg : Option CMsg),
      (sysret = -1 → recv_fd sysret errno cmsg = .error (.inr (.Read errno)))
      ∧ (sysret ≠ -1 → cmsg = none →
          recv_fd sysret errno cmsg
            = .error (.inl (.InvalidAddress "no control message received")))
      ∧ (∀ c : CMsg, sysret ≠ -1 → cmsg = some c →
          (c.cmsg_level ≠ SOL_SOCKET ∨ c.cmsg_type ≠ SCM_RIGHTS) →
          recv_fd sysret errno cmsg
            = .error (.inl (.InvalidAddress "unexpected control message type")))
      ∧ (∀ c : CMsg, sysret ≠ -1 → cmsg = some c →
          c.cmsg_level = SOL_SOCKET → c.cmsg_type = SCM_RIGHTS →
          recv_fd sysret errno cmsg = .ok c.fd)
      ∧ (∀ fd : Nat, recv_fd sysret errno cmsg = .ok fd →
          sysret ≠ -1 ∧ cmsg = some ⟨SOL_SOCKET, SCM_RIGHTS, fd⟩) := by
  intro sysret errno cmsg
  refine ⟨fun h => by simp [recv_fd, h], fun h1 h2 => by simp [recv_fd, h1, h2],
    fun c h1 h2 h3 => ?_, fun c h1 h2 h3 h4 => ?_, fun fd h => ?_⟩
  · subst h2
    rcases h3 with h3 | h3 <;> simp [recv_fd, h1, h3]
  · subst h2
    simp [recv_fd, h1, h3, h4]
  · by_cases h1 : sysret = -1
    · simp [recv_fd, h1] at h
    · cases cmsg with
      | none => simp [recv_fd, h1] at h
      | some c =>
        by_cases h3 : c.cmsg_level ≠ SOL_SOCKET ∨ c.cmsg_type ≠ SCM_RIGHTS
        · rcases h3 with h3 | h3 <;> simp [recv_fd, h1, h3] at h
        · push_neg at h3
          simp [recv_fd, h1, h3.1, h3.2] at h
          refine ⟨h1, ?_⟩
          cases c
          simp_all

/-- C8 witness: the failure kinds at concrete inputs — syscall failure,
missing control message, wrong message type, and a well-formed
`SCM_RIGHTS` message carrying descriptor 9. -/
theorem C8_witness :
    recv_fd (-1) 9 none = .error (.inr (.Read 9))
    ∧ recv_fd 1 0 none = .error (.inl (.InvalidAddress "no control message received"))
    ∧ recv_fd 1 0 (some ⟨SOL_SOCKET, 2, 9⟩)
        = .error (.inl (.InvalidAddress "unexpected control message type"))
    ∧ recv_fd 1 0 (some ⟨SOL_SOCKET, SCM_RIGHTS, 9⟩) = .ok 9 := by
  refine ⟨(C8_recv_fd_failure_kinds (-1) 9 none).1 rfl,
    (C8_recv_fd_failure_kinds 1 0 none).2.1 (by decide) rfl,
    (C8_recv_fd_failure_kinds 1 0 (some ⟨SOL_SOCKET, 2, 9⟩)).2.2.1 ⟨SOL_SOCKET, 2, 9⟩
      (by decide) rfl (Or.inr (by decide)),
    (C8_recv_fd_failure_kinds 1 0 (some ⟨SOL_SOCKET, SCM_RIGHTS, 9⟩)).2.2.2.1
      ⟨SOL_SOCKET, SCM_RIGHTS, 9⟩ (by decide) rfl rfl rfl⟩

/-- C9: the empty filesystem path marshals to the all-zero 108-byte path
buffer; reconstructing from that buffer takes the abstract branch
(`sun_path[0] == 0`) and yields the abstract address with the empty name —
the filesystem/abstract flag is not preserved at this boundary — while
every non-empty, null-free filesystem path of marshalable length (≤ 107)
round-trips with both flag and bytes intact. -/
theorem C9_empty_path_flag_flip :
    (UnixAddr.new []).to_raw = some ⟨AF_UNIX, List.replicate SUN_PATH_LEN 0⟩
    ∧ (UnixAddr.new []).to_raw.map UnixAddr.from_raw = some (UnixAddr.abstract_socket [])
    ∧ (UnixAddr.abstract_socket []).is_abstract = true
    ∧ (UnixAddr.new []).is_abstract = false
    ∧ (∀ b₀ : Nat, ∀ t : List Nat,
        (∀ b ∈ b₀ :: t, b < 256) → (∀ b ∈ b₀ :: t, b ≠ 0) → (b₀ :: t).length ≤ 107 →
        (UnixAddr.new (b₀ :: t)).to_raw.map UnixAddr.from_raw
          = some (UnixAddr.new (b₀ :: t))) := by
  refine ⟨by decide, by decide, rfl, rfl, fun b₀ t hb hz hlen => ?_⟩
  rw [unix_fs_roundtrip b₀ t hb (hz b₀ (List.mem_cons_self _ _)) hlen,
    findIdx_eq_length_of_no_zero _ hz, List.take_length]

/-- C9 witness: the preserved round trip at the concrete path `[47, 115]`
(e.g. "/s"). -/
theorem C9_witness :
    (UnixAddr.new [47, 115]).to_raw.map UnixAddr.from_raw
      = some (UnixAddr.new [47, 115]) :=
  C9_empty_path_flag_flip.2.2.2.2 47 [115] (by decide) (by decide) (by decide)

/-- C10: `with_raw` for `SocketAddrV4` and `SocketAddrV6` always invokes
the supplied callback on the marshaled form and returns `Some` of its
result (there is no failure case); consequently, whenever the marshal
result is `Some` — always, for these two families — the "address too
long" `InvalidAddress` branch of `bind`, `connect`, `connect_nonblocking`
and `bind_datagram` is not taken: only `UnixAddr`, whose `with_raw` can
return `None`, can produce it. -/
theorem C10_ip_with_raw_infallible :
    (∀ (R : Type) (a : SocketAddrV4) (f : sockaddr_in → Nat → R),
      a.with_raw f = some (f a.to_raw sizeof_sockaddr_in))
    ∧ (∀ (R : Type) (a : SocketAddrV6) (f : sockaddr_in6 → Nat → R),
        a.with_raw f = some (f a.to_raw sizeof_sockaddr_in6))
    ∧ (∀ (A : Type) (s : RawSocket) (addr : A) (result : Option Int) (errno : Int),
        result.isSome →
          s.bind addr result errno ≠ .error (.InvalidAddress "address too long")
          ∧ s.connect addr result errno ≠ .error (.InvalidAddress "address too long")
          ∧ s.bind_datagram addr result errno ≠ .error (.InvalidAddress "address too long")
          ∧ s.connect_nonblocking addr none result errno
              ≠ .err (.InvalidAddress "address too long")) := by
  refine ⟨fun R a f => rfl, fun R a f => rfl, fun A s addr result errno hs => ?_⟩
  obtain ⟨r, rfl⟩ := Option.isSome_iff_exists.mp hs
  refine ⟨?_, ?_, ?_, ?_⟩
  · by_cases h1 : r = -1 <;> simp [RawSocket.bind, h1]
  · by_cases h1 : r = -1 <;> simp [RawSocket.connect, h1]
  · by_cases h1 : r = -1 <;> simp [RawSocket.bind_datagram, h1]
  · unfold RawSocket.connect_nonblocking
    by_cases h0 : r = 0
    · simp [h0]
    · by_cases h1 : r = -1
      · by_cases h2 : errno = EINPROGRESS <;> simp [h0, h1, h2]
      · simp [h0, h1]

/-- C10 witness: an IPv4 and an IPv6 address each marshaled through
`with_raw` (callback invoked, `Some` returned), and a bind through the
marshaled result that is not the invalid-address error. -/
theorem C10_witness :
    (SocketAddrV4.mk [127, 0, 0, 1] 80).with_raw (fun _ len => len) = some sizeof_sockaddr_in
    ∧ (SocketAddrV6.mk (List.replicate 16 0) 80 0).with_raw (fun _ len => len)
        = some sizeof_sockaddr_in6
    ∧ (RawSocket.mk 3).bind (SocketAddrV4.mk [127, 0, 0, 1] 80) (some 0) 0
        ≠ .error (.InvalidAddress "address too long") := by
  refine ⟨C10_ip_with_raw_infallible.1 Nat ⟨[127, 0, 0, 1], 80⟩ (fun _ len => len),
    C10_ip_with_raw_infallible.2.1 Nat ⟨List.replicate 16 0, 80, 0⟩ (fun _ len => len),
    (C10_ip_with_raw_infallible.2.2 SocketAddrV4 ⟨3⟩ ⟨[127, 0, 0, 1], 80⟩ (some 0) 0
      rfl).1⟩
